import Mathlib

/-!
Shallow embedding of `src/validateoptions.js` (kafene/validateoptions).

JavaScript values are modelled by the inductive `JSValue`; plain objects,
arrays and functions appearing as *data* are identified abstractly (their
contents are never inspected by the validator).  Caller-supplied functions
(`map`, `ok`) are modelled as Lean functions; a `map` function may in
addition throw, which is modelled by the `MapOutcome` codomain.  Thrown
exceptions are modelled with `Except`; the error type `VError` separates
the library's own `RequirementError` from the plain `Error` raised for an
invalid type tag and from a host `TypeError`.

JavaScript numbers are modelled by `Int` (`NaN`/floats are not needed by
any requirement logic: the validator never does arithmetic).  A field that
is *present but falsy* on a requirement object (`is: null`, `map: 0`, ...)
behaves in the source exactly like one the engine ignores at its truthiness
test; such fields are modelled as `none`, matching every `if (req.field)`
guard in the source.
-/

namespace VO

inductive JSValue where
  | undef
  | null
  | boolean (b : Bool)
  | number (n : Int)
  | str (s : String)
  | sym (id : Nat)
  | func (id : Nat)
  | array (id : Nat)
  | object (id : Nat)
  | regexp (p : String)
deriving DecidableEq

/-- JavaScript truthiness of a value (`!value`, `value ? _ : _`). -/
def truthy : JSValue → Bool
  | .undef => false
  | .null => false
  | .boolean b => b
  | .number n => n != 0
  | .str s => s != ""
  | _ => true

/-- `value == null` (loose equality): true exactly for `null` and `undefined`. -/
def isNullish : JSValue → Bool
  | .null => true
  | .undef => true
  | _ => false

/-- Source: `VALID_TYPES` — the possible return values of `getTypeOf`. -/
def VALID_TYPES : List String :=
  ["array", "boolean", "function", "null", "number", "object", "regexp",
   "string", "symbol", "undefined"]

/-- Source: `getTypeOf`.  `typeof value`, except that for the native
`"object"` tag the source refines: falsy (i.e. `null`) to `"null"`,
`Array.isArray` to `"array"`, `instanceof RegExp` to `"regexp"`. -/
def getTypeOf : JSValue → String
  | .undef => "undefined"
  | .null => "null"
  | .boolean _ => "boolean"
  | .number _ => "number"
  | .str _ => "string"
  | .sym _ => "symbol"
  | .func _ => "function"
  | .array _ => "array"
  | .object _ => "object"
  | .regexp _ => "regexp"

/-- The shape of a value stored in a requirement's `is` field: either a raw
array of type-tag strings (`tags`), or a non-array object whose own `is`
property is again such a value (`reqIs`), or a non-array object without a
truthy `is` property (`reqNoIs`). -/
inductive TypeSpec where
  | tags (ts : List String)
  | reqIs (s : TypeSpec)
  | reqNoIs
deriving DecidableEq

/-- Source: `findTypes` — `while (!Array.isArray(v) && v.is) v = v.is; return v;`
(an array stops the loop; an object without a truthy `is` is returned as is). -/
def findTypes : TypeSpec → TypeSpec
  | .tags ts => .tags ts
  | .reqNoIs => .reqNoIs
  | .reqIs s => findTypes s

/-- The result of a caller-supplied `map` function: it returns a value,
throws a `RequirementError`, or throws any other exception. -/
inductive MapOutcome where
  | ret (v : JSValue)
  | throwReq (key : String) (message : String)
  | throwOther

/-- Source: one requirement object (one value of the `requirements`
argument).  `dflt := some v` models an own property `dflt` (`v` may be
`JSValue.undef`: `'dflt' in req` is a presence test, not a truthiness
test).  The other fields model truthy `map` / `is` / `ok` / `msg`
properties. -/
structure Requirement where
  dflt : Option JSValue := none
  map : Option (JSValue → MapOutcome) := none
  is : Option TypeSpec := none
  ok : Option (JSValue → JSValue) := none
  msg : Option String := none

/-- Thrown exceptions: the library's `RequirementError`, the plain
`Error` thrown for an invalid requirement type tag, and the host
`TypeError` raised when `requirement.is.join` is called on a non-array. -/
inductive VError where
  | requirementError (key : String) (message : String)
  | internalError (message : String)
  | jsTypeError
deriving DecidableEq

/-- The message built by the `RequirementError` constructor when no custom
message applies: `requirement.is` truthy means
`'must be one of the following types: ' + requirement.is.join(', ')` —
which is a `TypeError` (modelled `none`) when `is` is truthy but not an
array — else `'is invalid.'`. -/
def defaultMessage (key : String) (is : Option TypeSpec) : Option String :=
  match is with
  | none => some ("The option \"" ++ key ++ "\" is invalid.")
  | some (.tags ts) =>
      some ("The option \"" ++ key ++ "\" must be one of the following types: "
            ++ String.intercalate ", " ts)
  | some (.reqIs _) => none
  | some .reqNoIs => none

/-- Source: the `RequirementError` constructor.  `let msg = requirement.msg;
if (!msg) ...` — a missing or empty (falsy) custom message falls back to
the default message. -/
def mkReqError (key : String) (req : Requirement) : VError :=
  let msgOpt : Option String :=
    match req.msg with
    | some m => if m = "" then none else some m
    | none => none
  match msgOpt with
  | some m => .requirementError key m
  | none =>
      match defaultMessage key req.is with
      | some s => .requirementError key s
      | none => .jsTypeError

/-- `key in obj` for the options object (modelled as an association list
with distinct keys, first binding wins). -/
def keyPresent (obj : List (String × JSValue)) (key : String) : Bool :=
  (obj.find? (fun p => p.1 == key)).isSome

/-- `obj[key]`, i.e. `undefined` when absent. -/
def lookupVal (obj : List (String × JSValue)) (key : String) : JSValue :=
  match obj.find? (fun p => p.1 == key) with
  | some p => p.2
  | none => JSValue.undef

/-- Source, lines 64-70: presence lookup and default substitution.
Returns the pair `(optsVal, keyInOpts)` just before the `map` step:
`if ('dflt' in req && optsVal === undefined) { optsVal = req.dflt;
keyInOpts = true; }`. -/
def preMapValue (options : List (String × JSValue)) (key : String)
    (req : Requirement) : JSValue × Bool :=
  let keyInOpts := keyPresent options key
  let optsVal := lookupVal options key
  match req.dflt with
  | some d => if optsVal = JSValue.undef then (d, true) else (optsVal, keyInOpts)
  | none => (optsVal, keyInOpts)

/-- Source, lines 72-82: the `map` step.  Returns `(optsVal, mapThrew)`;
a thrown `RequirementError` propagates, any other exception is swallowed
leaving the value unchanged. -/
def mapStep (req : Requirement) (v : JSValue) :
    Except VError (JSValue × Bool) :=
  match req.map with
  | none => .ok (v, false)
  | some f =>
      match f v with
      | .ret w => .ok (w, false)
      | .throwReq k m => .error (.requirementError k m)
      | .throwOther => .ok (v, true)

/-- Source, lines 87-91: `let types = req.is; if (!Array.isArray(types) &&
Array.isArray(types.is)) types = types.is;` — exactly one level of
indirection is unwrapped; the result is the tag array the engine will use,
or `none` when `types` is still not an array (the whole check is skipped). -/
def resolveIs : TypeSpec → Option (List String)
  | .tags ts => some ts
  | .reqIs (.tags ts) => some ts
  | .reqIs _ => none
  | .reqNoIs => none

/-- Source, lines 84-105: the `is` step.  Computes `isOptional`, sanity
checks the caller's type names (`forEach` throws a plain `Error` at the
first invalid one), then type-checks the value.  Returns `isOptional`. -/
def typeCheck (key : String) (req : Requirement) (v : JSValue) :
    Except VError Bool :=
  match req.is with
  | none => .ok false
  | some spec =>
      match resolveIs spec with
      | none => .ok false
      | some types =>
          let isOptional := types.contains "undefined" && types.contains "null"
          match types.find? (fun t => ! VALID_TYPES.contains t) with
          | some t =>
              .error (.internalError
                ("Internal error: invalid requirement type \"" ++ t ++ "\"."))
          | none =>
              if ! types.contains (getTypeOf v) then
                .error (mkReqError key req)
              else
                .ok isOptional

/-- Source, lines 107-109: the `ok` step.
`if (req.ok && ((!isOptional || optsVal != null) && !req.ok(optsVal)))`. -/
def okCheck (key : String) (req : Requirement) (isOptional : Bool)
    (v : JSValue) : Except VError Unit :=
  match req.ok with
  | none => .ok ()
  | some f =>
      if (!isOptional || !isNullish v) && !truthy (f v) then
        .error (mkReqError key req)
      else
        .ok ()

/-- Source, line 111: the inclusion condition
`keyInOpts || (req.map && !mapThrew && optsVal !== undefined)`. -/
def includeValue (req : Requirement) (keyInOpts : Bool) (mapThrew : Bool)
    (v : JSValue) : Bool :=
  keyInOpts || (req.map.isSome && !mapThrew && !(v == JSValue.undef))

/-- The body of the `for (const key in requirements)` loop for one key:
returns `some value` when the key is added to `validatedOptions`,
`none` when it is omitted, and an error when the loop throws.  The steps
run in source order: default substitution, `map`, `is`, `ok`, inclusion;
the pair returned by `mapStep` is `(optsVal, mapThrew)`. -/
def processKey (options : List (String × JSValue)) (key : String)
    (req : Requirement) : Except VError (Option JSValue) :=
  match mapStep req (preMapValue options key req).1 with
  | .error e => .error e
  | .ok vm =>
      match typeCheck key req vm.1 with
      | .error e => .error e
      | .ok isOptional =>
          match okCheck key req isOptional vm.1 with
          | .error e => .error e
          | .ok _ =>
              if includeValue req (preMapValue options key req).2 vm.2 vm.1 then
                .ok (some vm.1)
              else
                .ok none

/-- Whether the engine invokes the caller's `ok` function for this key:
`req.ok` is truthy, no earlier step threw, and the short-circuit guard
`(!isOptional || optsVal != null)` allows the call (source line 107). -/
def okInvoked (options : List (String × JSValue)) (key : String)
    (req : Requirement) : Bool :=
  match req.ok with
  | none => false
  | some _ =>
      match mapStep req (preMapValue options key req).1 with
      | .error _ => false
      | .ok vm =>
          match typeCheck key req vm.1 with
          | .error _ => false
          | .ok isOptional => !isOptional || !isNullish vm.1

/-- `validatedOptions[key] = optsVal` on an association-list object. -/
def setKey (obj : List (String × JSValue)) (key : String) (v : JSValue) :
    List (String × JSValue) :=
  match obj with
  | [] => [(key, v)]
  | (k, w) :: rest =>
      if k = key then (k, v) :: rest else (k, w) :: setKey rest key v

/-- The `for (const key in requirements)` loop, accumulating
`validatedOptions`. -/
def runKeys (options : List (String × JSValue)) :
    List (String × Requirement) → List (String × JSValue) →
    Except VError (List (String × JSValue))
  | [], acc => .ok acc
  | (key, req) :: rest, acc =>
      match processKey options key req with
      | .error e => .error e
      | .ok none => runKeys options rest acc
      | .ok (some v) => runKeys options rest (setKey acc key v)

/-- Source: `validateOptions(options, requirements)`.  A falsy `options`
argument is replaced by `{}` before the loop (`options = options || {}`),
so the options object is modelled directly as a (possibly empty)
association list. -/
def validateOptions (options : List (String × JSValue))
    (requirements : List (String × Requirement)) :
    Except VError (List (String × JSValue)) :=
  runKeys options requirements []

/-! ### Combinators -/

/-- Source: `isTruthyType = (type) => !(type === 'undefined' || type === 'null')`. -/
def isTruthyType (t : String) : Bool := !(t == "undefined" || t == "null")

/-- The `reduce` in `union`: keep each element not already present
(first occurrence wins). -/
def dedupe (l : List String) : List String :=
  l.foldl (fun result item =>
    if result.contains item then result else result ++ [item]) []

/-- Source: `union(...arrays)`.  `[].concat.apply(...arrays)` spreads the
argument list into `Function.prototype.apply(thisArg, argsArray)`: the
first array becomes `this`, the second becomes the argument list of
`concat`, and every further array is ignored (`apply` takes two
parameters).  No array at all makes `concat.apply()` throw a `TypeError`
(modelled `none`). -/
def union : List (List String) → Option (List String)
  | [] => none
  | [a] => some (dedupe a)
  | a :: b :: _ => some (dedupe (a ++ b))

/-- A resolved `findTypes` result viewed as a tag array, when it is one. -/
def asTags : TypeSpec → Option (List String)
  | .tags ts => some ts
  | .reqIs _ => none
  | .reqNoIs => none

/-- Source: `either(...types) = union.apply(null, types.map(findTypes))`.
The string-level model applies when every argument resolves to a tag
array (a stuck resolution would make `concat` wrap the object itself). -/
def either (args : List TypeSpec) : Option (List String) := do
  let arrays ← args.mapM (fun a => asTags (findTypes a))
  union arrays

/-- Source: `optional(req)`.  `req = merge({is: []}, req)` builds a fresh
object whose `is` is the argument's own `is`, or `[]` when absent; then
`req.is = findTypes(req).filter(isTruthyType).concat('undefined', 'null')`.
When `findTypes` stops on a non-array, `.filter` throws a `TypeError`
(modelled `none`). -/
def optional (req : Requirement) : Option Requirement :=
  let mergedIs : TypeSpec := req.is.getD (.tags [])
  match findTypes mergedIs with
  | .tags ts =>
      some { req with is := some (.tags ((ts.filter isTruthyType)
                                          ++ ["undefined", "null"])) }
  | _ => none

/-- Source: `required(req)`.  `(findTypes(req) || VALID_TYPES)` — for an
object argument `findTypes` always returns a truthy value, but a missing
`is` leaves it a non-array object, and a stuck resolution likewise, so
`.filter` throws a `TypeError` (modelled `none`); otherwise the result is
`merge({}, req, {is: types})`: a fresh object with the filtered tags. -/
def required (req : Requirement) : Option Requirement :=
  match req.is with
  | none => none
  | some spec =>
      match findTypes spec with
      | .tags ts => some { req with is := some (.tags (ts.filter isTruthyType)) }
      | _ => none

end VO

namespace VO

/-! ### Claims -/

/-- Claim C1 (code bug): `either(...reqs)` is documented (doc comment of
`union`) to return the union of the accepted-type sets of ALL arguments,
but `union` spreads its argument list into `Function.prototype.apply`,
whose third and later parameters are ignored: with three tag-array
arguments the third is silently dropped, so the result is the union of the
first two only. -/
theorem c1_either_drops_later_arguments :
    either [TypeSpec.tags ["string"], TypeSpec.tags ["number"],
            TypeSpec.tags ["boolean"]]
      = some ["string", "number"] := by decide

/-- Claim C2 (confirmed): when a requirement's transform (`map`) throws a
`RequirementError`, that error propagates out of `validateOptions`
immediately (whatever requirements follow); when it throws anything else,
the engine behaves exactly as if the requirement had no `map` at all: the
pre-transform value is used for all subsequent steps and no error reaches
the caller from the transform. -/
theorem c2_transform_error_handling
    (options : List (String × JSValue)) (key : String) (req : Requirement)
    (f : JSValue → MapOutcome) (hmap : req.map = some f) :
    (∀ k m rest, f (preMapValue options key req).1 = MapOutcome.throwReq k m →
        validateOptions options ((key, req) :: rest)
          = .error (VError.requirementError k m)) ∧
    (f (preMapValue options key req).1 = MapOutcome.throwOther →
        ∀ rest, validateOptions options ((key, req) :: rest)
          = validateOptions options ((key, { req with map := none }) :: rest)) := by
  constructor
  · intro k m rest h
    have hms : mapStep req (preMapValue options key req).1
        = .error (.requirementError k m) := by
      simp [mapStep, hmap, h]
    simp [validateOptions, runKeys, processKey, hms]
  · intro h rest
    have hms : mapStep req (preMapValue options key req).1
        = .ok ((preMapValue options key req).1, true) := by
      simp [mapStep, hmap, h]
    have hms' : mapStep { req with map := none }
        (preMapValue options key { req with map := none }).1
        = .ok ((preMapValue options key req).1, false) := rfl
    have hpk : processKey options key req
        = processKey options key { req with map := none } := by
      unfold processKey
      rw [hms, hms']
      have e1 : typeCheck key { req with map := none } = typeCheck key req := rfl
      have e2 : okCheck key { req with map := none } = okCheck key req := rfl
      have e3 : (preMapValue options key { req with map := none }).2
          = (preMapValue options key req).2 := rfl
      rw [e1, e2, e3]
      simp [includeValue, hmap]
    simp only [validateOptions, runKeys, hpk]

/-- Witness for C2 at concrete inputs: a transform throwing a
`RequirementError` aborts the call with that error, and a transform
throwing a plain error leaves the engine behaving as if it had no
transform. -/
theorem c2_transform_error_handling_witness :
    validateOptions [] [("foo", { map := some (fun _ => MapOutcome.throwReq "foo" "boom") })]
        = .error (VError.requirementError "foo" "boom")
    ∧ validateOptions [] [("foo", { map := some (fun _ => MapOutcome.throwOther) })]
        = validateOptions []
            [("foo", ({ map := some (fun _ => MapOutcome.throwOther) : Requirement}
                        |> fun r => { r with map := none }))] :=
  ⟨(c2_transform_error_handling [] "foo" _ _ rfl).1 "foo" "boom" [] rfl,
   (c2_transform_error_handling [] "foo" _ _ rfl).2 rfl []⟩

end VO

namespace VO

/-- Counterexample to claim C3: with a chain of two nested requirements
(`{is: {is: {is: ['string']}}}`) the engine does NOT resolve `.is`
recursively — the single unwrapping step still leaves a non-array, the
type check is skipped entirely, and a number is accepted although the
ultimate tag set is `['string']` and `"number"` is not in it. -/
theorem c3_counterexample :
    validateOptions [("foo", JSValue.number 42)]
        [("foo", { is := some (TypeSpec.reqIs (TypeSpec.reqIs (TypeSpec.tags ["string"]))) })]
      = .ok [("foo", JSValue.number 42)]
    ∧ ¬ getTypeOf (JSValue.number 42) ∈ ["string"] :=
  ⟨rfl, by decide⟩

/-- Claim C3 as amended: during `validateOptions` the `is` field is
resolved by following `.is` exactly ONE step, not recursively: a raw tag
array is used directly, a requirement whose `is` is directly a tag array
is unwrapped to it, and any deeper chain leaves a non-array, in which case
the type check is skipped entirely (no error, not optional).  When the one
step does yield a (valid) tag array, the value is type-checked against it. -/
theorem c3_is_resolved_one_level
    (key : String) (req : Requirement) (v : JSValue) (spec : TypeSpec)
    (his : req.is = some spec) :
    (∀ ts, spec = TypeSpec.tags ts → resolveIs spec = some ts) ∧
    (∀ ts, spec = TypeSpec.reqIs (TypeSpec.tags ts) → resolveIs spec = some ts) ∧
    (∀ s, spec = TypeSpec.reqIs (TypeSpec.reqIs s) → resolveIs spec = none) ∧
    (resolveIs spec = none → typeCheck key req v = .ok false) ∧
    (∀ ts, resolveIs spec = some ts → (∀ t ∈ ts, t ∈ VALID_TYPES) →
        (typeCheck key req v = .error (mkReqError key req)
          ↔ ¬ getTypeOf v ∈ ts)) := by
  refine ⟨?_, ?_, ?_, ?_, ?_⟩
  · rintro ts rfl; rfl
  · rintro ts rfl; rfl
  · rintro s rfl; rfl
  · intro hnone
    simp [typeCheck, his, hnone]
  · intro ts hts hvalid
    have hfind : ts.find? (fun t => !decide (t ∈ VALID_TYPES)) = none := by
      rw [List.find?_eq_none]
      intro t ht
      simpa using hvalid t ht
    by_cases hmem : getTypeOf v ∈ ts <;>
      simp [typeCheck, his, hts, hfind, hmem]

/-- Witness for C3's amended theorem: a doubly nested `is` resolves to
`none` and the value `42` passes with no type check at all. -/
theorem c3_is_resolved_one_level_witness :
    resolveIs (TypeSpec.reqIs (TypeSpec.reqIs (TypeSpec.tags ["string"]))) = none
    ∧ typeCheck "foo"
        { is := some (TypeSpec.reqIs (TypeSpec.reqIs (TypeSpec.tags ["string"]))) }
        (JSValue.number 42) = .ok false := by
  refine ⟨?_, ?_⟩
  · exact (c3_is_resolved_one_level "foo"
      { is := some (TypeSpec.reqIs (TypeSpec.reqIs (TypeSpec.tags ["string"]))) }
      (JSValue.number 42) _ rfl).2.2.1 (TypeSpec.tags ["string"]) rfl
  · exact (c3_is_resolved_one_level "foo"
      { is := some (TypeSpec.reqIs (TypeSpec.reqIs (TypeSpec.tags ["string"]))) }
      (JSValue.number 42) _ rfl).2.2.2.1 rfl

/-- Counterexample to claim C5: for a key that is PRESENT in the options
object with value `undefined`, the engine still substitutes the default
(`if ('dflt' in req && optsVal === undefined)` tests the looked-up value,
not key presence), so the result holds the default `5`, not the supplied
`undefined`. -/
theorem c5_counterexample :
    validateOptions [("foo", JSValue.undef)]
        [("foo", { dflt := some (JSValue.number 5) })]
      = .ok [("foo", JSValue.number 5)]
    ∧ JSValue.number 5 ≠ JSValue.undef :=
  ⟨rfl, by decide⟩

/-- Claim C5 as amended: a declared default is substituted exactly when
the looked-up value is `undefined` — that is, when the key is absent from
the options OR present with value `undefined` — and then the key counts as
present; when the looked-up value is defined, the supplied value is used
with the original presence flag. -/
theorem c5_default_when_undefined
    (options : List (String × JSValue)) (key : String) (req : Requirement)
    (d : JSValue) (hd : req.dflt = some d) :
    (lookupVal options key = JSValue.undef →
        preMapValue options key req = (d, true)) ∧
    (lookupVal options key ≠ JSValue.undef →
        preMapValue options key req
          = (lookupVal options key, keyPresent options key)) := by
  constructor <;> intro h <;> simp [preMapValue, hd, h]

/-- Witness for C5's amended theorem: an absent key with a declared
default gets the default and counts as present. -/
theorem c5_default_when_undefined_witness :
    preMapValue [] "a" { dflt := some (JSValue.number 5) }
      = (JSValue.number 5, true) :=
  (c5_default_when_undefined [] "a" { dflt := some (JSValue.number 5) }
    (JSValue.number 5) rfl).1 rfl

/-- Counterexample to claim C6: a requirement that supplies the custom
message `""` (a supplied custom `msg`) does NOT get it used verbatim — the
constructor tests `if (!msg)`, the empty string is falsy, and the generic
message is used instead. -/
theorem c6_counterexample :
    validateOptions [("foo", JSValue.number 1)]
        [("foo", { ok := some (fun _ => JSValue.boolean false), msg := some "" })]
      = .error (VError.requirementError "foo" "The option \"foo\" is invalid.")
    ∧ "The option \"foo\" is invalid." ≠ "" :=
  ⟨rfl, by decide⟩

/-- Claim C6 as amended: for every `RequirementError` built by the
constructor: a NON-EMPTY custom `msg` is used verbatim; otherwise, when
the requirement's declared `is` is a type-tag array, the message names the
key and lists the declared type names joined by `", "`; and when no `is`
was declared, the message is the generic invalid-option statement. -/
theorem c6_error_message_rules (key : String) (req : Requirement) :
    (∀ m, req.msg = some m → m ≠ "" →
        mkReqError key req = VError.requirementError key m) ∧
    (req.msg = none ∨ req.msg = some "" → ∀ ts, req.is = some (TypeSpec.tags ts) →
        mkReqError key req = VError.requirementError key
          ("The option \"" ++ key ++ "\" must be one of the following types: "
            ++ String.intercalate ", " ts)) ∧
    (req.msg = none ∨ req.msg = some "" → req.is = none →
        mkReqError key req = VError.requirementError key
          ("The option \"" ++ key ++ "\" is invalid.")) := by
  refine ⟨?_, ?_, ?_⟩
  · intro m hm hne
    simp [mkReqError, hm, hne]
  · rintro (hm | hm) ts hts <;> simp [mkReqError, defaultMessage, hm, hts]
  · rintro (hm | hm) hts <;> simp [mkReqError, defaultMessage, hm, hts]

/-- Witness for C6's amended theorem at concrete inputs: a non-empty
custom message is used verbatim, and with no message but a declared tag
array the message lists the tags joined by a comma and space. -/
theorem c6_error_message_rules_witness :
    mkReqError "k" { msg := some "boom" } = VError.requirementError "k" "boom"
    ∧ mkReqError "foo" { is := some (TypeSpec.tags ["object", "number"]) }
        = VError.requirementError "foo"
            ("The option \"" ++ "foo" ++ "\" must be one of the following types: "
              ++ String.intercalate ", " ["object", "number"]) :=
  ⟨(c6_error_message_rules "k" { msg := some "boom" }).1 "boom" rfl (by decide),
   (c6_error_message_rules "foo" { is := some (TypeSpec.tags ["object", "number"]) }).2.1
      (Or.inl rfl) ["object", "number"] rfl⟩

end VO

namespace VO

/-- Claim C7 (confirmed): whenever the tag array the engine resolves a
requirement's `is` to contains a name outside the fixed `VALID_TYPES`
vocabulary, the type-check step throws the internal `Error` regardless of
the value being validated (the `forEach` sanity check runs before the
value's type is consulted); this error is a different constructor from
(never equal to) a `RequirementError`; and with no transform in the way,
`validateOptions` on that key fails with the internal error. -/
theorem c7_invalid_tag_internal_error
    (options : List (String × JSValue)) (key : String) (req : Requirement)
    (spec : TypeSpec) (ts : List String) (t : String) (v : JSValue)
    (his : req.is = some spec) (hres : resolveIs spec = some ts)
    (hmem : t ∈ ts) (hbad : t ∉ VALID_TYPES) :
    (∃ m, typeCheck key req v = .error (VError.internalError m)) ∧
    (∀ m k2 m2, VError.internalError m ≠ VError.requirementError k2 m2) ∧
    (req.map = none → ∃ m, validateOptions options [(key, req)]
        = .error (VError.internalError m)) := by
  have hfind : ∃ t', ts.find? (fun t => ! VALID_TYPES.contains t) = some t' := by
    rw [← Option.isSome_iff_exists, List.find?_isSome]
    exact ⟨t, hmem, by simpa using hbad⟩
  obtain ⟨t', hf⟩ := hfind
  have hall : ∀ w, typeCheck key req w = .error (VError.internalError
      ("Internal error: invalid requirement type \"" ++ t' ++ "\".")) := by
    intro w
    simp only [typeCheck, his, hres, hf]
  refine ⟨⟨_, hall v⟩, ?_, ?_⟩
  · intro m k2 m2 hc
    exact VError.noConfusion hc
  · intro hmap
    have hms : mapStep req (preMapValue options key req).1
        = .ok ((preMapValue options key req).1, false) := by
      simp [mapStep, hmap]
    refine ⟨"Internal error: invalid requirement type \"" ++ t' ++ "\".", ?_⟩
    simp only [validateOptions, runKeys, processKey, hms,
      hall (preMapValue options key req).1]

/-- Witness for C7 at a concrete input: a requirement declaring the
unrecognized tag `"integer"` makes `validateOptions` fail with the
internal error even though no value is present. -/
theorem c7_invalid_tag_internal_error_witness :
    ∃ m, validateOptions [] [("k", { is := some (TypeSpec.tags ["integer"]) })]
      = .error (VError.internalError m) :=
  (c7_invalid_tag_internal_error [] "k"
      { is := some (TypeSpec.tags ["integer"]) } (TypeSpec.tags ["integer"])
      ["integer"] "integer" JSValue.undef rfl rfl (by decide) (by decide)).2.2 rfl

end VO

namespace VO

/-- Counterexample to claim C8: a requirement declaring a predicate
(`ok`) on a non-exempt value (the value `42` is neither `null` nor
`undefined`, and the tag set `["string"]` contains neither `"undefined"`
nor `"null"`) whose predicate is nevertheless NOT invoked — the type check
fails first and the engine throws before reaching the `ok` call, as the
repository's own test asserts ("is should be used before ok is called"). -/
theorem c8_counterexample :
    okInvoked [("foo", JSValue.number 42)] "foo"
        { is := some (TypeSpec.tags ["string"]), ok := some (fun v => v) } = false
    ∧ ({ is := some (TypeSpec.tags ["string"]), ok := some (fun v => v) }
        : Requirement).ok.isSome = true
    ∧ isNullish (JSValue.number 42) = false :=
  ⟨rfl, rfl, rfl⟩

/-- Claim C8 as amended: the predicate is not invoked when the resolved
accepted-type set contains both `undefined` and `null` and the
(post-default, post-transform) value is null or undefined; NOR is it
invoked when an earlier step already threw (type-check failure or invalid
tag).  In the remaining cases — a declared predicate reached with the
type check passed and the value not exempt — it is invoked with the value,
and a falsy return raises a `RequirementError` for that key. -/
theorem c8_predicate_invocation
    (options : List (String × JSValue)) (key : String) (req : Requirement)
    (f : JSValue → JSValue) (hok : req.ok = some f) :
    (∀ v mt spec ts, mapStep req (preMapValue options key req).1 = .ok (v, mt) →
        isNullish v = true → req.is = some spec → resolveIs spec = some ts →
        "undefined" ∈ ts → "null" ∈ ts →
        okInvoked options key req = false) ∧
    (∀ v mt isOpt, mapStep req (preMapValue options key req).1 = .ok (v, mt) →
        typeCheck key req v = .ok isOpt →
        (isOpt = false ∨ isNullish v = false) →
        okInvoked options key req = true ∧
          (truthy (f v) = false →
            processKey options key req = .error (mkReqError key req))) := by
  constructor
  · intro v mt spec ts hms hnv his hres hu hn
    simp only [okInvoked, hok, hms]
    simp only [typeCheck, his, hres]
    rcases hf : ts.find? (fun t => ! VALID_TYPES.contains t) with _ | t'
    · by_cases hg : getTypeOf v ∈ ts <;> simp [hf, hg, hu, hn, hnv]
    · simp [hf]
  · intro v mt isOpt hms htc hcase
    have hguard : (!isOpt || !isNullish v) = true := by
      rcases hcase with h | h <;> simp [h]
    constructor
    · simp only [okInvoked, hok, hms, htc, hguard]
    · intro hfv
      have hoc : okCheck key req isOpt v = .error (mkReqError key req) := by
        simp only [okCheck, hok, hguard, hfv]
        simp
      simp only [processKey, hms, htc, hoc]

/-- Witness for C8's amended theorem: with no type restriction and a
predicate returning `false`, the predicate is invoked and the key fails
with a `RequirementError`. -/
theorem c8_predicate_invocation_witness :
    okInvoked [("b", JSValue.number 2)] "b"
        { ok := some (fun _ => JSValue.boolean false) } = true
    ∧ processKey [("b", JSValue.number 2)] "b"
        { ok := some (fun _ => JSValue.boolean false) }
      = .error (mkReqError "b" { ok := some (fun _ => JSValue.boolean false) }) :=
  ⟨((c8_predicate_invocation [("b", JSValue.number 2)] "b"
      { ok := some (fun _ => JSValue.boolean false) }
      (fun _ => JSValue.boolean false) rfl).2 (JSValue.number 2) false false
      rfl rfl (Or.inl rfl)).1,
   ((c8_predicate_invocation [("b", JSValue.number 2)] "b"
      { ok := some (fun _ => JSValue.boolean false) }
      (fun _ => JSValue.boolean false) rfl).2 (JSValue.number 2) false false
      rfl rfl (Or.inl rfl)).2 rfl⟩

/-- Claim C9 (confirmed): `optional` is idempotent — whenever
`optional r` succeeds with `r'`, applying `optional` again returns `r'`
itself, and `r'`'s accepted-type set holds `"undefined"` and `"null"`
exactly once each (they are stripped before being re-appended, so a second
application cannot duplicate them). -/
theorem c9_optional_idempotent (r r' : Requirement)
    (h : optional r = some r') :
    optional r' = some r'
    ∧ ∃ L, r'.is = some (TypeSpec.tags L)
        ∧ L.count "undefined" = 1 ∧ L.count "null" = 1 := by
  rcases hft : findTypes (r.is.getD (.tags [])) with ts | s | _
  · simp only [optional, hft] at h
    have hr' := Option.some.inj h
    subst hr'
    have h1 : ("undefined" : String) ∉ ts.filter isTruthyType := by
      intro hmem
      have := (List.mem_filter.mp hmem).2
      simp [isTruthyType] at this
    have h2 : ("null" : String) ∉ ts.filter isTruthyType := by
      intro hmem
      have := (List.mem_filter.mp hmem).2
      simp [isTruthyType] at this
    have hfu : (ts.filter isTruthyType ++ ["undefined", "null"]).filter isTruthyType
        = ts.filter isTruthyType := by
      rw [List.filter_append]
      have hend : (["undefined", "null"] : List String).filter isTruthyType = [] := rfl
      rw [hend, List.append_nil, List.filter_filter]
      congr 1
      funext a
      rw [Bool.and_self]
    refine ⟨?_, ts.filter isTruthyType ++ ["undefined", "null"], rfl, ?_, ?_⟩
    · simp only [optional, Option.getD_some, findTypes, hfu]
    · rw [List.count_append, List.count_eq_zero.mpr h1]
      decide
    · rw [List.count_append, List.count_eq_zero.mpr h2]
      decide
  · simp only [optional, hft] at h
    exact Option.noConfusion h
  · simp only [optional, hft] at h
    exact Option.noConfusion h

/-- Witness for C9 at a concrete requirement: `optional` of the empty
requirement yields the accepted set `["undefined", "null"]`, and applying
`optional` again returns the same requirement. -/
theorem c9_optional_idempotent_witness :
    optional { is := some (TypeSpec.tags ["undefined", "null"]) }
      = some { is := some (TypeSpec.tags ["undefined", "null"]) }
    ∧ ∃ L, ({ is := some (TypeSpec.tags ["undefined", "null"]) }
          : Requirement).is = some (TypeSpec.tags L)
        ∧ L.count "undefined" = 1 ∧ L.count "null" = 1 :=
  c9_optional_idempotent {} { is := some (TypeSpec.tags ["undefined", "null"]) } rfl

end VO

namespace VO

/-- Key membership after an object assignment: `setKey acc key v` has an
entry for `k` iff `acc` had one or `k` is the assigned key. -/
theorem mem_keys_setKey (acc : List (String × JSValue)) (key k : String)
    (v : JSValue) :
    (∃ w, (k, w) ∈ setKey acc key v) ↔ ((∃ w, (k, w) ∈ acc) ∨ k = key) := by
  induction acc with
  | nil =>
    simp [setKey, Prod.ext_iff]
  | cons p rest ih =>
    rcases p with ⟨pk, pv⟩
    by_cases hpk : pk = key
    · subst hpk
      simp only [setKey, if_pos rfl]
      simp [Prod.ext_iff, exists_or]
      tauto
    · simp only [setKey, if_neg hpk]
      simp [Prod.ext_iff, exists_or, ih]
      tauto

/-- When the whole loop returns normally, every listed requirement was
processed without an error. -/
theorem runKeys_ok_processes (options : List (String × JSValue))
    (reqs : List (String × Requirement)) (acc result : List (String × JSValue))
    (h : runKeys options reqs acc = .ok result) :
    ∀ k req, (k, req) ∈ reqs → ∃ x, processKey options k req = .ok x := by
  induction reqs generalizing acc with
  | nil =>
    intro k req hmem
    simp at hmem
  | cons p rest ih =>
    rcases p with ⟨pk, preq⟩
    intro k req hmem
    simp only [runKeys] at h
    rcases hpk : processKey options pk preq with e | ov
    · rw [hpk] at h
      exact absurd h (by simp)
    · rcases List.mem_cons.mp hmem with heq | hm'
      · cases heq
        exact ⟨ov, hpk⟩
      · rcases ov with _ | v
        · rw [hpk] at h
          exact ih acc h k req hm'
        · rw [hpk] at h
          exact ih (setKey acc pk v) h k req hm'

/-- The loop's accumulated result has an entry for `k` iff the incoming
accumulator had one, or some listed requirement for `k` was processed to
an included value. -/
theorem runKeys_mem (options : List (String × JSValue))
    (reqs : List (String × Requirement)) (acc result : List (String × JSValue))
    (h : runKeys options reqs acc = .ok result) (k : String) :
    (∃ w, (k, w) ∈ result) ↔
      ((∃ w, (k, w) ∈ acc)
       ∨ ∃ req v, (k, req) ∈ reqs ∧ processKey options k req = .ok (some v)) := by
  induction reqs generalizing acc with
  | nil =>
    simp only [runKeys] at h
    obtain rfl := Except.ok.inj h
    simp
  | cons p rest ih =>
    rcases p with ⟨pk, preq⟩
    simp only [runKeys] at h
    rcases hpk : processKey options pk preq with e | ov
    · rw [hpk] at h
      exact absurd h (by simp)
    · rcases ov with _ | v
      · rw [hpk] at h
        rw [ih acc h]
        constructor
        · rintro (ha | ⟨req, v, hm, hp⟩)
          · exact Or.inl ha
          · exact Or.inr ⟨req, v, List.mem_cons_of_mem _ hm, hp⟩
        · rintro (ha | ⟨req, v, hm, hp⟩)
          · exact Or.inl ha
          · rcases List.mem_cons.mp hm with heq | hm'
            · cases heq
              rw [hp] at hpk
              exact absurd hpk (by simp)
            · exact Or.inr ⟨req, v, hm', hp⟩
      · rw [hpk] at h
        rw [ih (setKey acc pk v) h, mem_keys_setKey]
        constructor
        · rintro ((ha | rfl) | ⟨req, w, hm, hp⟩)
          · exact Or.inl ha
          · exact Or.inr ⟨preq, v, List.mem_cons_self _ _, hpk⟩
          · exact Or.inr ⟨req, w, List.mem_cons_of_mem _ hm, hp⟩
        · rintro (ha | ⟨req, w, hm, hp⟩)
          · exact Or.inl (Or.inl ha)
          · rcases List.mem_cons.mp hm with heq | hm'
            · cases heq
              exact Or.inl (Or.inr rfl)
            · exact Or.inr ⟨req, w, hm', hp⟩

/-- `processKey` includes a value for the key iff it does not throw and
the source's inclusion condition holds: the key counted as present
(supplied or defaulted), or a declared transform did not throw and
produced a defined value. -/
theorem processKey_some_iff (options : List (String × JSValue)) (k : String)
    (req : Requirement) :
    (∃ v, processKey options k req = .ok (some v)) ↔
      ((∃ x, processKey options k req = .ok x)
       ∧ ((preMapValue options k req).2 = true
          ∨ (req.map.isSome = true
             ∧ ∃ w, mapStep req (preMapValue options k req).1 = .ok (w, false)
                ∧ w ≠ JSValue.undef))) := by
  unfold processKey
  rcases hms : mapStep req (preMapValue options k req).1 with e | vm
  · simp
  · rcases vm with ⟨w, mt⟩
    rcases htc : typeCheck k req w with e | isOpt
    · simp [htc]
    · rcases hoc : okCheck k req isOpt w with e | u
      · simp [htc, hoc]
      · simp only [htc, hoc]
        by_cases hic : includeValue req (preMapValue options k req).2 mt w = true
        · simp only [hic, if_true]
          simp only [includeValue, Bool.or_eq_true, Bool.and_eq_true,
            Bool.not_eq_true', beq_eq_false_iff_ne] at hic
          rcases hic with hki | ⟨⟨hsome, hmt⟩, hw⟩
          · constructor
            · rintro ⟨v, hv⟩
              exact ⟨⟨some w, rfl⟩, Or.inl hki⟩
            · intro
              exact ⟨w, rfl⟩
          · subst hmt
            constructor
            · rintro ⟨v, hv⟩
              exact ⟨⟨some w, rfl⟩, Or.inr ⟨hsome, w, rfl, hw⟩⟩
            · intro
              exact ⟨w, rfl⟩
        · simp only [if_neg hic]
          simp only [includeValue, Bool.or_eq_true, Bool.and_eq_true,
            Bool.not_eq_true', beq_eq_false_iff_ne] at hic
          push_neg at hic
          constructor
          · rintro ⟨v, hv⟩
            exact absurd hv (by simp)
          · rintro ⟨hx, hki | ⟨hsome, w', hw', hne⟩⟩
            · exact absurd hki hic.1
            · have hinj := Except.ok.inj hw'
              have h1 : w = w' := congrArg Prod.fst hinj
              have h2 : mt = false := congrArg Prod.snd hinj
              exact (hne (by rw [← h1]; exact hic.2 ⟨hsome, h2⟩)).elim

end VO

namespace VO

/-- Claim C4 (confirmed): when `validateOptions` returns normally, the
result has an entry for `k` iff some requirement is listed for `k` and
either (a) the key counted as present (it was in the options, or a
default was substituted — `preMapValue`'s second component), or (b) the
requirement declared a transform that did not throw and returned a
defined value.  Every other key — including every options key without a
matching requirement — is absent from the result. -/
theorem c4_result_key_membership
    (options : List (String × JSValue))
    (requirements : List (String × Requirement))
    (result : List (String × JSValue))
    (h : validateOptions options requirements = .ok result) (k : String) :
    (∃ w, (k, w) ∈ result) ↔
      ∃ req, (k, req) ∈ requirements ∧
        ((preMapValue options k req).2 = true
         ∨ (req.map.isSome = true
            ∧ ∃ w, mapStep req (preMapValue options k req).1 = .ok (w, false)
               ∧ w ≠ JSValue.undef)) := by
  rw [runKeys_mem options requirements [] result h k]
  constructor
  · rintro (⟨w, hw⟩ | ⟨req, v, hm, hp⟩)
    · exact absurd hw (List.not_mem_nil _)
    · exact ⟨req, hm, ((processKey_some_iff options k req).mp ⟨v, hp⟩).2⟩
  · rintro ⟨req, hm, hcond⟩
    obtain ⟨x, hx⟩ := runKeys_ok_processes options requirements [] result h k req hm
    obtain ⟨v, hv⟩ := (processKey_some_iff options k req).mpr ⟨⟨x, hx⟩, hcond⟩
    exact Or.inr ⟨req, v, hm, hv⟩

/-- Witness for C4 at a concrete run: `{foo: 3}` validated against the
empty requirement for `foo` yields a result containing `foo`. -/
theorem c4_result_key_membership_witness :
    ∃ w, ("foo", w) ∈ ([("foo", JSValue.number 3)] : List (String × JSValue)) :=
  (c4_result_key_membership [("foo", JSValue.number 3)] [("foo", {})]
      [("foo", JSValue.number 3)] rfl "foo").mpr
    ⟨{}, List.mem_singleton.mpr rfl, Or.inl rfl⟩

end VO

namespace VO

/-! ### Store model of the combinators

The frame properties of `required` / `optional` / `either` (no argument
mutated, result array fresh) are about array identity, so here the
type-tag arrays live in an explicit store: a cell holds one array,
mutation would be an in-place write to an existing cell, and allocation
appends a new cell.  `filter`, `concat` and the `reduce` seed `[]` in the
source all allocate; `merge` writes only into its fresh first argument. -/

abbrev Store := List (List String)

/-- A type-spec value whose tag arrays live in a store: `arr r` refers to
the array in cell `r`; `objIs` / `objNoIs` are non-array objects with /
without a truthy own `is`. -/
inductive HSpec where
  | arr (ref : Nat)
  | objIs (s : HSpec)
  | objNoIs

/-- `findTypes` over store references: follows `.is` while the value is
not an array; it only chases references and never touches any array. -/
def hFindTypes : HSpec → HSpec
  | .arr r => .arr r
  | .objNoIs => .objNoIs
  | .objIs s => hFindTypes s

/-- Read the array in cell `r`. -/
def readArr (σ : Store) (r : Nat) : List String := σ.getD r []

/-- Allocate a fresh array cell, returning the new store and the new
cell's reference. -/
def alloc (σ : Store) (a : List String) : Store × Nat := (σ ++ [a], σ.length)

/-- A requirement object as the combinators see it: only the `is`
property is manipulated; all other own properties are copied verbatim by
`merge` into a fresh object. -/
structure HReq where
  is : Option HSpec := none

/-- Store-level `required(req)`: when `findTypes` reaches an array,
`.filter(isTruthyType)` allocates the filtered copy and
`merge({}, req, {is: types})` returns a fresh object holding the fresh
reference; when it does not (`req` without usable `is`), `.filter` on a
non-array throws a `TypeError` (`none`). -/
def hRequired (σ : Store) (req : HReq) : Option (Store × HReq) :=
  match req.is with
  | none => none
  | some spec =>
      match hFindTypes spec with
      | .arr r =>
          let a := alloc σ ((readArr σ r).filter isTruthyType)
          some (a.1, { is := some (.arr a.2) })
      | _ => none

/-- Store-level `optional(req)`: `merge({is: []}, req)` starts from the
argument's own `is`, or from a freshly allocated empty array when there
is none; then `.filter(...).concat('undefined', 'null')` allocates the
result array. -/
def hOptional (σ : Store) (req : HReq) : Option (Store × HReq) :=
  match req.is with
  | some s =>
      match hFindTypes s with
      | .arr r =>
          let a := alloc σ ((readArr σ r).filter isTruthyType
                            ++ ["undefined", "null"])
          some (a.1, { is := some (.arr a.2) })
      | _ => none
  | none =>
      let e := alloc σ []
      let a := alloc e.1 ((readArr e.1 e.2).filter isTruthyType
                          ++ ["undefined", "null"])
      some (a.1, { is := some (.arr a.2) })

/-- Store-level `union`: reads the first two argument arrays (later ones
are dropped by `apply`) and allocates the deduplicated combination; with
no array at all, `concat.apply()` throws (`none`). -/
def hUnion (σ : Store) (refs : List Nat) : Option (Store × Nat) :=
  match refs with
  | [] => none
  | [a] => some (alloc σ (dedupe (readArr σ a)))
  | a :: b :: _ => some (alloc σ (dedupe (readArr σ a ++ readArr σ b)))

/-- `types.map(findTypes)` in the tags-only model: every argument must
resolve to an array reference; no array is copied in the process. -/
def resolveRefs : List HSpec → Option (List Nat)
  | [] => some []
  | a :: rest =>
      match hFindTypes a with
      | .arr r =>
          match resolveRefs rest with
          | some rs => some (r :: rs)
          | none => none
      | _ => none

/-- Store-level `either(...types)`: `types.map(findTypes)` resolves every
argument to an array reference (without copying), then `union` allocates
the result. -/
def hEither (σ : Store) (args : List HSpec) : Option (Store × Nat) :=
  match resolveRefs args with
  | none => none
  | some refs => hUnion σ refs

/-- Claim C10 (confirmed, on the store model): `required`, `optional` and
`either` never mutate their argument requirements or any existing
type-tag array — each call leaves every pre-existing store cell in place,
only appending fresh cells — and the returned type-tag set is a freshly
allocated array: its reference lies at or beyond the old store's end, so
it aliases none of the arguments' arrays. -/
theorem c10_combinators_no_mutation :
    (∀ σ req σ2 req2, hRequired σ req = some (σ2, req2) →
        ((∃ δ, σ2 = σ ++ δ)
         ∧ ∃ r, req2.is = some (HSpec.arr r) ∧ σ.length ≤ r)) ∧
    (∀ σ req σ2 req2, hOptional σ req = some (σ2, req2) →
        ((∃ δ, σ2 = σ ++ δ)
         ∧ ∃ r, req2.is = some (HSpec.arr r) ∧ σ.length ≤ r)) ∧
    (∀ σ args σ2 r, hEither σ args = some (σ2, r) →
        ((∃ δ, σ2 = σ ++ δ) ∧ σ.length ≤ r)) := by
  refine ⟨?_, ?_, ?_⟩
  · intro σ req σ2 req2 h
    rcases hri : req.is with _ | spec
    · simp [hRequired, hri] at h
    · rcases hf : hFindTypes spec with r | s | _
      · simp only [hRequired, hri, hf, alloc, Option.some.injEq,
          Prod.mk.injEq] at h
        obtain ⟨rfl, rfl⟩ := h
        exact ⟨⟨_, rfl⟩, σ.length, rfl, Nat.le_refl _⟩
      · simp [hRequired, hri, hf] at h
      · simp [hRequired, hri, hf] at h
  · intro σ req σ2 req2 h
    rcases hri : req.is with _ | spec
    · simp only [hOptional, hri, alloc, Option.some.injEq,
        Prod.mk.injEq] at h
      obtain ⟨rfl, rfl⟩ := h
      refine ⟨⟨[[]] ++ [_], by rw [List.append_assoc]⟩,
        (σ ++ [[]]).length, rfl, ?_⟩
      simp
    · rcases hf : hFindTypes spec with r | s | _
      · simp only [hOptional, hri, hf, alloc, Option.some.injEq,
          Prod.mk.injEq] at h
        obtain ⟨rfl, rfl⟩ := h
        exact ⟨⟨_, rfl⟩, σ.length, rfl, Nat.le_refl _⟩
      · simp [hOptional, hri, hf] at h
      · simp [hOptional, hri, hf] at h
  · intro σ args σ2 r h
    rcases hm : resolveRefs args with _ | refs
    · simp [hEither, hm] at h
    · simp only [hEither, hm] at h
      rcases refs with _ | ⟨a, _ | ⟨b, rest⟩⟩
      · simp [hUnion] at h
      · simp only [hUnion, alloc, Option.some.injEq, Prod.mk.injEq] at h
        obtain ⟨rfl, rfl⟩ := h
        exact ⟨⟨_, rfl⟩, Nat.le_refl _⟩
      · simp only [hUnion, alloc, Option.some.injEq, Prod.mk.injEq] at h
        obtain ⟨rfl, rfl⟩ := h
        exact ⟨⟨_, rfl⟩, Nat.le_refl _⟩

/-- Witness for C10 at a concrete store: `required` of a requirement
whose tag array sits in cell 0 appends the filtered copy as cell 1 —
the original cell is untouched and the result reference is fresh. -/
theorem c10_combinators_no_mutation_witness :
    hRequired [["string", "null"]] { is := some (HSpec.arr 0) }
      = some ([["string", "null"], ["string"]], { is := some (HSpec.arr 1) })
    ∧ (∃ δ, ([["string", "null"], ["string"]] : Store)
        = [["string", "null"]] ++ δ)
    ∧ (∃ r, ({ is := some (HSpec.arr 1) } : HReq).is = some (HSpec.arr r)
         ∧ ([["string", "null"]] : Store).length ≤ r) :=
  ⟨rfl,
   (c10_combinators_no_mutation.1 [["string", "null"]]
      { is := some (HSpec.arr 0) } [["string", "null"], ["string"]]
      { is := some (HSpec.arr 1) } rfl).1,
   (c10_combinators_no_mutation.1 [["string", "null"]]
      { is := some (HSpec.arr 0) } [["string", "null"], ["string"]]
      { is := some (HSpec.arr 1) } rfl).2⟩

end VO
